import Mathlib

/-!
# Verification of the SSE streaming aggregation core of the YouTube search agent frontend

This file gives a shallow embedding, in Lean 4, of the streaming-event
aggregation engine of `src/main.py` (functions `process_sse_events`,
`load_session`, and the session field-access sites), and proves the
specification's claims about it.

Python values produced by `json.loads` are modelled by the inductive `JVal`;
Python truthiness, `dict.get`, `dict[k]` item access and iteration are
modelled by total Lean functions returning `Except Unit` where the Python
operation can raise (the thrown exception value is irrelevant to control
flow, so it is erased to `Unit`).  `json.loads` itself is the Python standard
library, external to this repository: an SSE `data:` line is therefore
modelled by the result of parsing it (`none` = `json.JSONDecodeError`).
-/

set_option maxHeartbeats 1000000

namespace YtAgent

/-- JSON-like values as returned by Python `json.loads`. -/
inductive JVal where
  | null : JVal
  | bool (b : Bool) : JVal
  | int (n : Int) : JVal
  | str (s : String) : JVal
  | arr (elems : List JVal) : JVal
  | obj (fields : List (String × JVal)) : JVal

/-- Python truthiness of a JSON value: `None`, `False`, `0`, `""`, `[]`, `{}`
are falsy, everything else truthy. -/
def JVal.truthy : JVal → Bool
  | .null => false
  | .bool b => b
  | .int n => n != 0
  | .str s => !(s == "")
  | .arr elems => !elems.isEmpty
  | .obj fields => !fields.isEmpty

/-- Python `d.get(k, dflt)`: on a dict, the stored value when `k` is present
(even when that value is `None`), else `dflt`; on any non-dict receiver the
attribute access raises (`AttributeError`). -/
def JVal.getD (v : JVal) (k : String) (dflt : JVal) : Except Unit JVal :=
  match v with
  | .obj fields =>
    match fields.lookup k with
    | some x => .ok x
    | none => .ok dflt
  | _ => .error ()

/-- Python `d.get(k)` (default `None`). -/
def JVal.get (v : JVal) (k : String) : Except Unit JVal :=
  v.getD k .null

/-- Python `d[k]` item access: `KeyError` when the key is absent,
`TypeError` on a non-dict receiver. -/
def JVal.item (v : JVal) (k : String) : Except Unit JVal :=
  match v with
  | .obj fields =>
    match fields.lookup k with
    | some x => .ok x
    | none => .error ()
  | _ => .error ()

/-- Python iteration `for x in v`: lists yield their elements, dicts their
keys, strings their one-character substrings; other values raise
`TypeError`. -/
def JVal.iterElems : JVal → Except Unit (List JVal)
  | .arr elems => .ok elems
  | .obj fields => .ok (fields.map (fun kv => JVal.str kv.fst))
  | .str s => .ok (s.toList.map (fun c => JVal.str (String.mk [c])))
  | _ => .error ()

/-- Python `a + b` for the value shapes the wire schema can produce:
string, integer and list addition; mixed or unsupported operand kinds raise
`TypeError`. -/
def pyAdd : JVal → JVal → Except Unit JVal
  | .str a, .str b => .ok (.str (a ++ b))
  | .int a, .int b => .ok (.int (a + b))
  | .arr a, .arr b => .ok (.arr (a ++ b))
  | _, _ => .error ()

/-- Python `v == s` for a string literal `s`: string equality when `v` is a
string, `False` for every other kind (Python `==` across types). -/
def JVal.isStr (v : JVal) (s : String) : Bool :=
  match v with
  | .str t => t == s
  | _ => false

/-- The `type` tag of a formatted event dict in `process_sse_events`
(`'function_call'`, `'video_list'`, `'text'`). -/
inductive EventType where
  | function_call : EventType
  | video_list : EventType
  | text : EventType
deriving DecidableEq, Repr

/-- One formatted event dict built by `process_sse_events`
(src/main.py lines 62-86): keys `type`, `content`, `role`, and — for
function-call events only — `name` and `args` (`none` models the key being
absent from the dict). -/
structure FEvent where
  type : EventType
  content : JVal
  role : String
  name : Option JVal
  args : Option JVal

/-- The mutable state of the `process_sse_events` loop:
`formatted_events` (the output list) and `current_event`
(the in-progress accumulation, `none` = Python `None`). -/
structure SSEState where
  formatted_events : List FEvent
  current_event : Option FEvent

/-- One decoded line of the SSE response (`response.iter_lines()` output,
already UTF-8 decoded).  `blank` is an empty line (falsy, skipped by
`if line:`), `nonData` a non-empty line without the `data: ` prefix, and
`dataLine p` a `data: ` line whose payload parses to `p`
(`none` = `json.JSONDecodeError`, the library `json.loads` being external
to the repository and modelled by its result). -/
inductive SSELine where
  | blank : SSELine
  | nonData (s : String) : SSELine
  | dataLine (parsed : Option JVal) : SSELine

/-- Shorthand for a well-parsed `data: ` line carrying payload `j`. -/
def dataOf (j : JVal) : SSELine :=
  .dataLine (some j)

/-- The body of the `for part in event_data['content']['parts']` loop of
`process_sse_events` (src/main.py lines 61-86), acting on `current_event`. -/
def processPart (current : Option FEvent) (part : JVal) : Except Unit (Option FEvent) := do
  let fc ← part.get "functionCall"
  if fc.truthy then
    let nm ← fc.get "name"
    let ar ← fc.get "args"
    pure (some ⟨.function_call, fc, "assistant", some nm, some ar⟩)
  else
    let fr ← part.get "functionResponse"
    if fr.truthy then
      let nm ← fr.get "name"
      if nm.isStr "search_youtube_videos" then
        let resp ← fr.getD "response" (.obj [])
        let videos ← resp.getD "videos" (.arr [])
        pure (some ⟨.video_list, videos, "assistant", none, none⟩)
      else
        pure current
    else
      let t ← part.get "text"
      if t.truthy then
        match current with
        | some ev =>
          if ev.type = .text then do
            let c ← pyAdd ev.content t
            pure (some { ev with content := c })
          else
            pure (some ⟨.text, t, "assistant", none, none⟩)
        | none => pure (some ⟨.text, t, "assistant", none, none⟩)
      else
        pure current

/-- Left-to-right processing of a frame's parts list. -/
def processParts (current : Option FEvent) : List JVal → Except Unit (Option FEvent)
  | [] => pure current
  | p :: ps => do processParts (← processPart current p) ps

/-- Processing of one parsed frame `event_data` (src/main.py lines 59-90).
Note that the `partial`-flush check (lines 88-90) is nested inside the
`if event_data.get('content', {}).get('parts'):` block, so a frame without
truthy parts performs no flush. -/
def processFrame (st : SSEState) (event_data : JVal) : Except Unit SSEState := do
  let content ← event_data.getD "content" (.obj [])
  let parts ← content.get "parts"
  if parts.truthy then
    let partsList ← (← (← event_data.item "content").item "parts").iterElems
    let current ← processParts st.current_event partsList
    let pflag ← event_data.get "partial"
    match current with
    | some ev =>
      if pflag.truthy then
        pure ⟨st.formatted_events, some ev⟩
      else
        pure ⟨st.formatted_events ++ [ev], none⟩
    | none => pure ⟨st.formatted_events, none⟩
  else
    pure st

/-- Outcome of one iteration of the `for line in response.iter_lines()`
loop: either the next state, or an uncaught (non-`JSONDecodeError`)
exception escaping the frame, which the outer `except` clause turns into
a terminal abort. -/
inductive StepOut where
  | next (st : SSEState) : StepOut
  | abort (st : SSEState) : StepOut

/-- One iteration of the line loop of `process_sse_events`
(src/main.py lines 53-93): blank lines and lines without the `data: `
prefix are skipped; a `json.JSONDecodeError` hits the inner `except` and
the loop continues; any other exception escapes the frame. -/
def stepLine (st : SSEState) : SSELine → StepOut
  | .blank => .next st
  | .nonData _ => .next st
  | .dataLine none => .next st
  | .dataLine (some j) =>
    match processFrame st j with
    | .ok st2 => .next st2
    | .error _ => .abort st

/-- Result of `process_sse_events`: the returned `formatted_events` and
whether `st.error` was invoked (by the outer `except` clause). -/
structure SSEResult where
  events : List FEvent
  errorShown : Bool

/-- The full line loop.  `transportErr` models `response.iter_lines()`
raising a transport exception after yielding the given lines; both that
and an in-body exception are caught by the outer `except Exception`
(src/main.py lines 94-95), which shows an error and still returns
`formatted_events`. -/
def processLoop : SSEState → List SSELine → Bool → SSEResult
  | st, [], transportErr => ⟨st.formatted_events, transportErr⟩
  | st, l :: ls, transportErr =>
    match stepLine st l with
    | .next st2 => processLoop st2 ls transportErr
    | .abort st2 => ⟨st2.formatted_events, true⟩

/-- `process_sse_events` (src/main.py lines 47-97) on a decoded line
stream, starting from `formatted_events = []`, `current_event = None`. -/
def process_sse_events (lines : List SSELine) (transportErr : Bool) : SSEResult :=
  processLoop ⟨[], none⟩ lines transportErr

/-- The state of the loop after consuming the given lines without any
uncaught exception (`none` when a frame aborted the loop); used to observe
the in-progress accumulation at end of stream. -/
def stateAfter : SSEState → List SSELine → Option SSEState
  | st, [] => some st
  | st, l :: ls =>
    match stepLine st l with
    | .next st2 => stateAfter st2 ls
    | .abort _ => none

/-- A part dict `{'text': t}`. -/
def mkTextPart (t : String) : JVal :=
  .obj [("text", .str t)]

/-- A part dict `{'functionCall': {'name': nm, 'args': ar}}`. -/
def mkFCPart (nm : String) (ar : JVal) : JVal :=
  .obj [("functionCall", .obj [("name", .str nm), ("args", ar)])]

/-- A part dict `{'functionResponse': {'name': nm, 'response': resp}}`. -/
def mkFRPart (nm : String) (resp : JVal) : JVal :=
  .obj [("functionResponse", .obj [("name", .str nm), ("response", resp)])]

/-- A part dict `{'functionResponse': {'name': nm}}` (no `response` key). -/
def mkFRPartNoResp (nm : String) : JVal :=
  .obj [("functionResponse", .obj [("name", .str nm)])]

/-- A frame `{'content': {'parts': parts}, 'partial': p}`. -/
def mkFrame (parts : List JVal) (p : Bool) : JVal :=
  .obj [("content", .obj [("parts", .arr parts)]), ("partial", .bool p)]

/-- A single-text-part frame. -/
def mkTextFrame (t : String) (p : Bool) : JVal :=
  mkFrame [mkTextPart t] p

/-- A single-function-call-part frame. -/
def mkFCFrame (nm : String) (ar : JVal) (p : Bool) : JVal :=
  mkFrame [mkFCPart nm ar] p

/-- The text event dict `{'type': 'text', 'content': t, 'role': 'assistant'}`. -/
def mkTextEvent (t : String) : FEvent :=
  ⟨.text, .str t, "assistant", none, none⟩

/-- The function-call event dict built at src/main.py lines 62-68. -/
def mkFCEvent (nm : String) (ar : JVal) : FEvent :=
  ⟨.function_call, .obj [("name", .str nm), ("args", ar)], "assistant",
    some (.str nm), some ar⟩

/-- The video-list event dict built at src/main.py lines 73-77. -/
def mkVideoListEvent (videos : JVal) : FEvent :=
  ⟨.video_list, videos, "assistant", none, none⟩

/-- Specification-level account of how a run of text parts accumulates in
`current_event`: an empty-string text part is falsy and is skipped, a
non-empty one starts or extends the text accumulation. -/
def accText (acc : Option String) (t : String) : Option String :=
  if t = "" then acc
  else
    match acc with
    | none => some t
    | some s => some (s ++ t)

/-- The `current_event` value corresponding to a text accumulation. -/
def textAcc : Option String → Option FEvent
  | none => none
  | some s => some (mkTextEvent s)

/-- The events appended when a `partial:false` frame flushes a text
accumulation. -/
def flushAcc : Option String → List FEvent
  | none => []
  | some s => [mkTextEvent s]

/-- `some s` for non-empty `s`, `none` for `""`. -/
def strToOpt (s : String) : Option String :=
  if s = "" then none else some s

/-- Ordered concatenation of a list of text fragments. -/
def concatTexts : List String → String
  | [] => ""
  | t :: ts => t ++ concatTexts ts

/-- One message row built by `load_session` (src/main.py lines 165-177):
keys `type`, `content`, `role`, `timestamp`.  `role` and `timestamp` are
arbitrary JSON values since they are read with `event.get(...)`. -/
structure Message where
  type : EventType
  content : JVal
  role : JVal
  timestamp : JVal

/-- The body of the `for part in event['content']['parts']` loop of
`load_session` (src/main.py lines 161-177): a `function_response` part
appends a `video_list` message exactly when `response.videos` is truthy
(regardless of the function name); otherwise a truthy `text` part appends
a `text` message. -/
def processHistPart (event : JVal) (msgs : List Message) (part : JVal) :
    Except Unit (List Message) := do
  let fr ← part.get "function_response"
  if fr.truthy then
    let resp ← fr.getD "response" (.obj [])
    let videos ← resp.get "videos"
    if videos.truthy then
      let content ← resp.item "videos"
      let author ← event.getD "author" (.str "assistant")
      let ts ← event.getD "timestamp" (.int 0)
      pure (msgs ++ [⟨.video_list, content, author, ts⟩])
    else
      pure msgs
  else
    let t ← part.get "text"
    if t.truthy then
      let content ← part.item "text"
      let author ← event.getD "author" (.str "unknown")
      let ts ← event.getD "timestamp" (.int 0)
      pure (msgs ++ [⟨.text, content, author, ts⟩])
    else
      pure msgs

/-- Left-to-right processing of a historical event's parts. -/
def processHistParts (event : JVal) (msgs : List Message) :
    List JVal → Except Unit (List Message)
  | [] => pure msgs
  | p :: ps => do processHistParts event (← processHistPart event msgs p) ps

/-- Processing of one historical event of `load_session`
(src/main.py lines 159-161): the guard
`if event.get('content') and event.get('content', {}).get('parts'):`
short-circuits, then the parts are iterated. -/
def processHistEvent (msgs : List Message) (event : JVal) :
    Except Unit (List Message) := do
  let c ← event.get "content"
  if c.truthy then
    let parts ← (← event.getD "content" (.obj [])).get "parts"
    if parts.truthy then
      let partsList ← (← (← event.item "content").item "parts").iterElems
      processHistParts event msgs partsList
    else
      pure msgs
  else
    pure msgs

/-- Recursion worker for `load_session`. -/
def loadGo : List Message → List JVal → Except Unit (List Message)
  | msgs, [] => pure msgs
  | msgs, e :: es => do loadGo (← processHistEvent msgs e) es

/-- The message-building loop of `load_session` (src/main.py lines
158-178) over a session's stored `events`. -/
def load_session (events : List JVal) : Except Unit (List Message) :=
  loadGo [] events

/-- A historical event `{'content': {'parts': parts}}` with an optional
`author` field and no `timestamp`. -/
def mkHistEvent (author : Option JVal) (parts : List JVal) : JVal :=
  .obj ((match author with
    | some a => [("author", a)]
    | none => []) ++ [("content", .obj [("parts", .arr parts)])])

/-- A historical part `{'function_response': {'name': nm, 'response': {'videos': v}}}`. -/
def mkHistFRPart (nm : String) (v : JVal) : JVal :=
  .obj [("function_response", .obj [("name", .str nm), ("response", .obj [("videos", v)])])]

/-- A historical part `{'function_response': {'name': nm, 'response': {}}}`
(no `videos` key). -/
def mkHistFRPartNoVideos (nm : String) : JVal :=
  .obj [("function_response", .obj [("name", .str nm), ("response", .obj [])])]

/-- A historical part `{'function_response': {'name': nm}}` (no `response`). -/
def mkHistFRPartNoResp (nm : String) : JVal :=
  .obj [("function_response", .obj [("name", .str nm)])]

/-- The session-info display of src/main.py line 278: `session.get('app_name')`. -/
def sessionInfoApp (session : JVal) : Except Unit JVal :=
  session.get "app_name"

/-- The session-info display of src/main.py line 280: `session.get('user_id')`. -/
def sessionInfoUser (session : JVal) : Except Unit JVal :=
  session.get "user_id"

/-- The message-send call site of src/main.py line 338:
`send_message(session['appName'], session['userId'], session['id'], prompt)` —
item access, raising `KeyError` when the camelCase spelling is absent. -/
def sendMessageArgs (session : JVal) : Except Unit (JVal × JVal) := do
  pure ((← session.item "appName"), (← session.item "userId"))

/-- A session object carrying only the snake_case spellings. -/
def snakeSession : JVal :=
  .obj [("id", .str "s1"), ("app_name", .str "app"), ("user_id", .str "user123")]

/-- The same session carrying only the camelCase spellings. -/
def camelSession : JVal :=
  .obj [("id", .str "s1"), ("appName", .str "app"), ("userId", .str "user123")]

/-! ## Helper lemmas -/

/-- A concatenation is empty only if its left factor is. -/
theorem append_eq_empty_left (s t : String) (h : s ++ t = "") : s = "" := by
  cases s with
  | mk ds =>
    cases t with
    | mk dt =>
      have h2 : ds ++ dt = [] := congrArg String.data h
      have h3 : ds = [] := (List.append_eq_nil.mp h2).1
      simp [h3]

/-- Stepping a `partial:true` single-text-part frame from a text
accumulation performs exactly the `accText` update and flushes nothing. -/
theorem processFrame_textTrue (evs : List FEvent) (acc : Option String) (t : String) :
    processFrame ⟨evs, textAcc acc⟩ (mkTextFrame t true) = .ok ⟨evs, textAcc (accText acc t)⟩ := by
  by_cases ht : t = ""
  · subst ht; cases acc <;> rfl
  · have hb : (t == "") = false := beq_eq_false_iff_ne.mpr ht
    cases acc <;>
      simp [processFrame, processParts, processPart, JVal.getD, JVal.get, JVal.item,
        JVal.iterElems, JVal.truthy, JVal.isStr, pyAdd, mkTextFrame, mkFrame, mkTextPart,
        mkTextEvent, textAcc, accText, List.lookup, hb, ht, Bind.bind, Except.bind, pure,
        Except.pure]

/-- Stepping a `partial:false` single-text-part frame from a text
accumulation flushes the updated accumulation (when non-empty) and resets
`current_event`. -/
theorem processFrame_textFalse (evs : List FEvent) (acc : Option String) (t : String) :
    processFrame ⟨evs, textAcc acc⟩ (mkTextFrame t false)
      = .ok ⟨evs ++ flushAcc (accText acc t), none⟩ := by
  by_cases ht : t = ""
  · subst ht; cases acc <;> simp [accText, textAcc, flushAcc] <;> rfl
  · have hb : (t == "") = false := beq_eq_false_iff_ne.mpr ht
    cases acc <;>
      simp [processFrame, processParts, processPart, JVal.getD, JVal.get, JVal.item,
        JVal.iterElems, JVal.truthy, JVal.isStr, pyAdd, mkTextFrame, mkFrame, mkTextPart,
        mkTextEvent, textAcc, accText, flushAcc, List.lookup, hb, ht, Bind.bind, Except.bind,
        pure, Except.pure]

/-- A run of `partial:true` text frames folds `accText` over the texts. -/
theorem stateAfter_textTrue (ts : List String) (evs : List FEvent) (acc : Option String)
    (rest : List SSELine) :
    stateAfter ⟨evs, textAcc acc⟩ ((ts.map fun t => dataOf (mkTextFrame t true)) ++ rest)
      = stateAfter ⟨evs, textAcc (ts.foldl accText acc)⟩ rest := by
  induction ts generalizing acc with
  | nil => rfl
  | cons t ts ih =>
    simp only [List.map_cons, List.cons_append, List.foldl_cons]
    rw [show stateAfter ⟨evs, textAcc acc⟩ (dataOf (mkTextFrame t true) :: ((ts.map fun t => dataOf (mkTextFrame t true)) ++ rest))
        = stateAfter ⟨evs, textAcc (accText acc t)⟩ ((ts.map fun t => dataOf (mkTextFrame t true)) ++ rest) from ?_]
    · exact ih (accText acc t)
    · simp [stateAfter, stepLine, dataOf, processFrame_textTrue]

/-- When no exception escapes a frame, the loop returns exactly the final
state's `formatted_events` — the final `current_event` is dropped. -/
theorem processLoop_of_stateAfter (lines : List SSELine) (st st2 : SSEState) (terr : Bool)
    (h : stateAfter st lines = some st2) :
    processLoop st lines terr = ⟨st2.formatted_events, terr⟩ := by
  induction lines generalizing st with
  | nil =>
    simp [stateAfter] at h
    subst h; rfl
  | cons l ls ih =>
    simp only [stateAfter] at h
    simp only [processLoop]
    cases hs : stepLine st l with
    | next st3 => rw [hs] at h; exact ih st3 h
    | abort st3 => rw [hs] at h; exact absurd h (by simp)

/-- A transport error after the last yielded line changes only the error
flag: the delivered events are those of a normally-ended stream. -/
theorem processLoop_transportErr (lines : List SSELine) (st : SSEState) :
    processLoop st lines true = ⟨(processLoop st lines false).events, true⟩ := by
  induction lines generalizing st with
  | nil => rfl
  | cons l ls ih =>
    simp only [processLoop]
    cases stepLine st l with
    | next st2 => exact ih st2
    | abort st2 => rfl

/-- `accText` on the string-option view is plain concatenation. -/
theorem accText_strToOpt (s t : String) : accText (strToOpt s) t = strToOpt (s ++ t) := by
  by_cases ht : t = ""
  · subst ht; simp [accText, String.append_empty]
  · by_cases hs : s = ""
    · subst hs; simp [accText, strToOpt, ht, String.empty_append]
    · have hst : ¬ s ++ t = "" := fun h => hs (append_eq_empty_left s t h)
      simp [accText, strToOpt, ht, hs, hst]

/-- Folding `accText` over a list of texts concatenates them. -/
theorem foldl_accText (ts : List String) (s : String) :
    ts.foldl accText (strToOpt s) = strToOpt (s ++ concatTexts ts) := by
  induction ts generalizing s with
  | nil => simp [concatTexts, String.append_empty]
  | cons t ts ih =>
    simp only [List.foldl_cons, concatTexts]
    rw [accText_strToOpt, ih, String.append_assoc]

/-- `concatTexts` distributes over list append. -/
theorem concatTexts_append (a b : List String) :
    concatTexts (a ++ b) = concatTexts a ++ concatTexts b := by
  induction a with
  | nil => simp [concatTexts, String.empty_append]
  | cons t ts ih =>
    show t ++ concatTexts (ts ++ b) = t ++ concatTexts ts ++ concatTexts b
    rw [ih, String.append_assoc]

/-- Every event `processPart` leaves in `current_event` carries role
`assistant` (new builders are created with that role; appending to a text
builder preserves its role). -/
theorem processPart_role (cur : Option FEvent) (p : JVal) (cur2 : Option FEvent)
    (hcur : ∀ ev, cur = some ev → ev.role = "assistant")
    (h : processPart cur p = Except.ok cur2) :
    ∀ ev, cur2 = some ev → ev.role = "assistant" := by
  unfold processPart at h
  simp only [Bind.bind, Except.bind, pure, Except.pure, Functor.map, Except.map] at h
  repeat (any_goals split at h)
  all_goals
    first
      | exact Except.noConfusion h
      | (intro ev hev
         injection h with h
         subst h
         first
           | (injection hev with hev; subst hev; rfl)
           | exact hcur ev hev
           | (injection hev with hev; subst hev; rename_i ev0 hty xx vv heq0; exact hcur ev0 rfl))

/-- `processPart_role` lifted over a frame's whole parts list. -/
theorem processParts_role (ps : List JVal) (cur cur2 : Option FEvent)
    (hcur : ∀ ev, cur = some ev → ev.role = "assistant")
    (h : processParts cur ps = Except.ok cur2) :
    ∀ ev, cur2 = some ev → ev.role = "assistant" := by
  induction ps generalizing cur with
  | nil =>
    simp only [processParts, pure, Except.pure] at h
    injection h with h
    subst h
    exact hcur
  | cons p ps ih =>
    simp only [processParts, Bind.bind, Except.bind] at h
    cases hp : processPart cur p with
    | error e => rw [hp] at h; exact Except.noConfusion h
    | ok mid => rw [hp] at h; exact ih mid (processPart_role cur p mid hcur hp) h

/-- One frame preserves the all-roles-assistant invariant of the loop
state. -/
theorem processFrame_role (st st2 : SSEState) (j : JVal)
    (hev : ∀ ev ∈ st.formatted_events, ev.role = "assistant")
    (hcur : ∀ ev, st.current_event = some ev → ev.role = "assistant")
    (h : processFrame st j = Except.ok st2) :
    (∀ ev ∈ st2.formatted_events, ev.role = "assistant") ∧
    (∀ ev, st2.current_event = some ev → ev.role = "assistant") := by
  unfold processFrame at h
  simp only [Bind.bind, Except.bind, pure, Except.pure, Functor.map, Except.map] at h
  repeat (any_goals split at h)
  all_goals
    first
      | exact Except.noConfusion h
      | (injection h with h; subst h; exact ⟨hev, hcur⟩)
      | (injection h with h; subst h
         exact ⟨hev, fun ev he => Option.noConfusion he⟩)
      | (injection h with h; subst h
         refine ⟨hev, ?_⟩
         intro ev he
         injection he with he
         subst he
         exact processParts_role _ _ _ hcur (by assumption) _ rfl)
      | (injection h with h; subst h
         refine ⟨?_, fun ev he => Option.noConfusion he⟩
         intro ev hm
         rcases List.mem_append.mp hm with hm2 | hm2
         · exact hev ev hm2
         · rw [List.mem_singleton] at hm2
           subst hm2
           exact processParts_role _ _ _ hcur (by assumption) _ rfl)

/-- Every event the loop ever emits carries role `assistant`. -/
theorem processLoop_role (lines : List SSELine) (st : SSEState) (terr : Bool)
    (hev : ∀ ev ∈ st.formatted_events, ev.role = "assistant")
    (hcur : ∀ ev, st.current_event = some ev → ev.role = "assistant") :
    ∀ ev ∈ (processLoop st lines terr).events, ev.role = "assistant" := by
  induction lines generalizing st with
  | nil => exact hev
  | cons l ls ih =>
    simp only [processLoop]
    cases l with
    | blank => exact ih st hev hcur
    | nonData s => exact ih st hev hcur
    | dataLine p =>
      cases p with
      | none => exact ih st hev hcur
      | some j =>
        simp only [stepLine]
        cases hf : processFrame st j with
        | ok st2 =>
          have h2 := processFrame_role st st2 j hev hcur hf
          exact ih st2 h2.1 h2.2
        | error e => exact hev

/-! ## Claims -/

/-- C1 (counterexample): a one-frame stream whose frame carries a text part
with the empty string and `partial:false` emits zero events, not exactly
one `Text` event with the (empty) concatenated content: Python truthiness
makes `part.get('text')` falsy for `""`, so no builder is ever created. -/
theorem c1_counterexample :
    process_sse_events [dataOf (mkTextFrame "" false)] false = ⟨[], false⟩ ∧
    (process_sse_events [dataOf (mkTextFrame "" false)] false).events.length ≠ 1 :=
  ⟨rfl, by decide⟩

/-- C1 (amended): for every stream of `partial:true` text-part frames
followed by one `partial:false` text-part frame in which at least one text
is non-empty, exactly one `Text` event is emitted and its content is the
concatenation, in arrival order, of every frame's text. -/
theorem c1_amended_text_concat (ts : List String) (tl : String)
    (h : concatTexts (ts ++ [tl]) ≠ "") :
    process_sse_events ((ts.map fun t => dataOf (mkTextFrame t true)) ++ [dataOf (mkTextFrame tl false)]) false
      = ⟨[mkTextEvent (concatTexts (ts ++ [tl]))], false⟩ := by
  have hsplit : concatTexts (ts ++ [tl]) = concatTexts ts ++ tl := by
    rw [concatTexts_append]
    show concatTexts ts ++ (tl ++ "") = concatTexts ts ++ tl
    rw [String.append_empty]
  have hfold : ts.foldl accText none = strToOpt (concatTexts ts) := by
    have h2 := foldl_accText ts ""
    rw [String.empty_append] at h2
    simpa [strToOpt] using h2
  have hacc : accText (strToOpt (concatTexts ts)) tl = some (concatTexts (ts ++ [tl])) := by
    rw [accText_strToOpt, ← hsplit]
    simp [strToOpt, h]
  have hsa : stateAfter ⟨[], none⟩
      ((ts.map fun t => dataOf (mkTextFrame t true)) ++ [dataOf (mkTextFrame tl false)])
      = some ⟨[mkTextEvent (concatTexts (ts ++ [tl]))], none⟩ := by
    have h3 := stateAfter_textTrue ts [] none [dataOf (mkTextFrame tl false)]
    rw [show (⟨[], textAcc none⟩ : SSEState) = ⟨[], none⟩ from rfl] at h3
    rw [h3, hfold]
    simp only [stateAfter, stepLine, dataOf, processFrame_textFalse, hacc, flushAcc]
    simp
  have h4 := processLoop_of_stateAfter _ _ _ false hsa
  simpa [process_sse_events] using h4

/-- C1 (witness): the spec's own example, `"Sea"` then `"rch results:"`,
yields one `Text` event with content `"Search results:"`. -/
theorem c1_amended_witness :
    concatTexts (["Sea"] ++ ["rch results:"]) ≠ "" ∧
    process_sse_events ((["Sea"].map fun t => dataOf (mkTextFrame t true)) ++ [dataOf (mkTextFrame "rch results:" false)]) false
      = ⟨[mkTextEvent (concatTexts (["Sea"] ++ ["rch results:"]))], false⟩ :=
  ⟨by decide, c1_amended_text_concat ["Sea"] "rch results:" (by decide)⟩

/-- C2 (counterexample): a stream that delivers one complete
`partial:false` text frame and then fails with a transport error hands the
caller that one event (plus the error notification), not zero events:
`process_sse_events` returns the `formatted_events` accumulated before the
failure. -/
theorem c2_counterexample :
    process_sse_events [dataOf (mkTextFrame "hi" false)] true = ⟨[mkTextEvent "hi"], true⟩ ∧
    (process_sse_events [dataOf (mkTextFrame "hi" false)] true).events.length ≠ 0 :=
  ⟨rfl, by decide⟩

/-- C2 (amended): a stream failing with a transport error always produces
the explicit error notification and delivers exactly the events a normal
end of stream at that point would have delivered — never a truncated or
mislabeled event; in particular a failure before any frame was finalized
(for example mid-utterance) yields zero events. -/
theorem c2_amended_error_reporting (lines : List SSELine) (ts : List String) :
    process_sse_events lines true = ⟨(process_sse_events lines false).events, true⟩ ∧
    process_sse_events (ts.map fun t => dataOf (mkTextFrame t true)) true = ⟨[], true⟩ := by
  constructor
  · exact processLoop_transportErr lines ⟨[], none⟩
  · have h3 := stateAfter_textTrue ts [] none []
    rw [show (⟨[], textAcc none⟩ : SSEState) = ⟨[], none⟩ from rfl] at h3
    have hsa : stateAfter ⟨[], none⟩ (ts.map fun t => dataOf (mkTextFrame t true))
        = some ⟨[], textAcc (ts.foldl accText none)⟩ := by
      simpa [stateAfter] using h3
    have h4 := processLoop_of_stateAfter _ _ _ true hsa
    simpa [process_sse_events] using h4

/-- C3: the snake_case and camelCase field spellings of a Session are not
treated as equivalent: the message-send site (line 338) reads only
`appName`/`userId` and raises `KeyError` on a snake_case-only session,
while the session-info display (lines 278-280) reads only
`app_name`/`user_id` and shows `None` for a camelCase-only session. -/
theorem c3_field_spelling_divergence :
    sendMessageArgs snakeSession = .error () ∧
    sendMessageArgs camelSession = .ok (JVal.str "app", JVal.str "user123") ∧
    sessionInfoUser snakeSession = .ok (JVal.str "user123") ∧
    sessionInfoUser camelSession = .ok JVal.null ∧
    sessionInfoApp snakeSession = .ok (JVal.str "app") ∧
    sessionInfoApp camelSession = .ok JVal.null :=
  ⟨rfl, rfl, rfl, rfl, rfl, rfl⟩

/-- C4 (counterexample): a `partial:true` function-call frame followed by a
`partial:false` frame whose text part is the empty string emits the
function-call event, not only the Text event: the empty-string text part is
falsy and ignored, so the function-call builder survives and is flushed. -/
theorem c4_counterexample :
    process_sse_events
        [dataOf (mkFCFrame "search_youtube_videos" (JVal.obj [("query", JVal.str "cats")]) true),
         dataOf (mkTextFrame "" false)] false
      = ⟨[mkFCEvent "search_youtube_videos" (JVal.obj [("query", JVal.str "cats")])], false⟩ ∧
    (process_sse_events
        [dataOf (mkFCFrame "search_youtube_videos" (JVal.obj [("query", JVal.str "cats")]) true),
         dataOf (mkTextFrame "" false)] false).events.map FEvent.type ≠ [EventType.text] :=
  ⟨rfl, by decide⟩

/-- C4 (amended): a `functionCall` part replaces the current builder
whatever it is; a non-empty text part arriving while the current builder is
not of kind Text replaces it; hence a `partial:true` function-call frame
followed by a `partial:false` frame with a non-empty text part emits only
the Text event. -/
theorem c4_amended_replacement (cur : Option FEvent) (nm : String) (ar : JVal) (t : String)
    (ht : t ≠ "") :
    processPart cur (mkFCPart nm ar) = .ok (some (mkFCEvent nm ar)) ∧
    (∀ ev : FEvent, ev.type ≠ .text → processPart (some ev) (mkTextPart t) = .ok (some (mkTextEvent t))) ∧
    process_sse_events [dataOf (mkFCFrame nm ar true), dataOf (mkTextFrame t false)] false
      = ⟨[mkTextEvent t], false⟩ := by
  have hb : (t == "") = false := beq_eq_false_iff_ne.mpr ht
  refine ⟨rfl, ?_, ?_⟩
  · intro ev hev
    simp [processPart, JVal.get, JVal.getD, JVal.truthy, JVal.isStr, List.lookup, mkTextPart,
      mkTextEvent, hb, hev, Bind.bind, Except.bind, pure, Except.pure, Functor.map, Except.map]
  · simp [process_sse_events, processLoop, stepLine, dataOf, processFrame, processParts,
      processPart, JVal.getD, JVal.get, JVal.item, JVal.iterElems, JVal.truthy, JVal.isStr,
      List.lookup, mkFCFrame, mkTextFrame, mkFrame, mkFCPart, mkTextPart, mkFCEvent,
      mkTextEvent, hb, Bind.bind, Except.bind, pure, Except.pure, Functor.map, Except.map]

/-- C4 (witness): a function-call frame then the non-empty text
`"Here are the results"` — only the Text event comes out. -/
theorem c4_amended_witness :
    ("Here are the results" : String) ≠ "" ∧
    process_sse_events
        [dataOf (mkFCFrame "search_youtube_videos" (JVal.obj [("query", JVal.str "cats")]) true),
         dataOf (mkTextFrame "Here are the results" false)] false
      = ⟨[mkTextEvent "Here are the results"], false⟩ :=
  ⟨by decide,
    (c4_amended_replacement none "search_youtube_videos" (JVal.obj [("query", JVal.str "cats")])
      "Here are the results" (by decide)).2.2⟩

/-- C5: a frame whose payload fails JSON parsing is skipped entirely —
deleting it from the stream changes nothing — and the spec's two-line
stream (one broken frame, then a valid `partial:false` text frame `"hi"`)
yields exactly one Text event with content `"hi"`. -/
theorem c5_malformed_frame_skipped :
    (∀ (pre post : List SSELine) (terr : Bool),
      process_sse_events (pre ++ SSELine.dataLine none :: post) terr
        = process_sse_events (pre ++ post) terr) ∧
    process_sse_events [SSELine.dataLine none, dataOf (mkTextFrame "hi" false)] false
      = ⟨[mkTextEvent "hi"], false⟩ := by
  constructor
  · intro pre post terr
    unfold process_sse_events
    generalize (⟨[], none⟩ : SSEState) = st
    induction pre generalizing st with
    | nil => rfl
    | cons l ls ih =>
      simp only [List.cons_append, processLoop]
      cases stepLine st l with
      | next st2 => exact ih st2
      | abort st2 => rfl
  · rfl

/-- C6: a `functionResponse` part named `search_youtube_videos` always
replaces the current builder with a `VideoList` builder holding
`response.videos`; a `partial:false` frame carrying it emits the
`VideoList` event — with the empty sequence substituted when
`response.videos` is empty, or when `videos` or `response` is absent —
never omitting the event. -/
theorem c6_video_response_event (cur : Option FEvent) (vids : List JVal) :
    processPart cur (mkFRPart "search_youtube_videos" (JVal.obj [("videos", JVal.arr vids)]))
      = .ok (some (mkVideoListEvent (JVal.arr vids))) ∧
    process_sse_events
        [dataOf (mkFrame [mkFRPart "search_youtube_videos" (JVal.obj [("videos", JVal.arr vids)])] false)] false
      = ⟨[mkVideoListEvent (JVal.arr vids)], false⟩ ∧
    process_sse_events
        [dataOf (mkFrame [mkFRPart "search_youtube_videos" (JVal.obj [])] false)] false
      = ⟨[mkVideoListEvent (JVal.arr [])], false⟩ ∧
    process_sse_events
        [dataOf (mkFrame [mkFRPartNoResp "search_youtube_videos"] false)] false
      = ⟨[mkVideoListEvent (JVal.arr [])], false⟩ :=
  ⟨rfl, rfl, rfl, rfl⟩

/-- C7: when the line stream ends (normally or because the caller stops
reading) while a non-empty text accumulation is open and no `partial:false`
frame arrived, the output is empty — the accumulated event, still present
in the final loop state, is dropped silently. -/
theorem c7_unflushed_drop (ts : List String) (h : concatTexts ts ≠ "") :
    process_sse_events (ts.map fun t => dataOf (mkTextFrame t true)) false = ⟨[], false⟩ ∧
    stateAfter ⟨[], none⟩ (ts.map fun t => dataOf (mkTextFrame t true))
      = some ⟨[], some (mkTextEvent (concatTexts ts))⟩ := by
  have hfold : ts.foldl accText none = strToOpt (concatTexts ts) := by
    have h2 := foldl_accText ts ""
    rw [String.empty_append] at h2
    simpa [strToOpt] using h2
  have h3 := stateAfter_textTrue ts [] none []
  rw [show (⟨[], textAcc none⟩ : SSEState) = ⟨[], none⟩ from rfl] at h3
  have hsa : stateAfter ⟨[], none⟩ (ts.map fun t => dataOf (mkTextFrame t true))
      = some ⟨[], textAcc (ts.foldl accText none)⟩ := by
    simpa [stateAfter] using h3
  constructor
  · have h4 := processLoop_of_stateAfter _ _ _ false hsa
    simpa [process_sse_events] using h4
  · rw [hsa, hfold]
    simp [textAcc, strToOpt, h]

/-- C7 (witness): a single `partial:true` frame `"Sea"` leaves the
accumulation open and the output empty. -/
theorem c7_unflushed_witness :
    concatTexts ["Sea"] ≠ "" ∧
    (process_sse_events (["Sea"].map fun t => dataOf (mkTextFrame t true)) false = ⟨[], false⟩ ∧
     stateAfter ⟨[], none⟩ (["Sea"].map fun t => dataOf (mkTextFrame t true))
       = some ⟨[], some (mkTextEvent (concatTexts ["Sea"]))⟩) :=
  ⟨by decide, c7_unflushed_drop ["Sea"] (by decide)⟩

/-- C8: in `load_session`, a historical `function_response` part is turned
into a `video_list` message exactly when `response.videos` is non-empty —
whatever the function name — and produces no message when `videos` is the
empty list, or when `videos` or `response` is absent. -/
theorem c8_historical_video_recognition (nm : String) (vs : List JVal) :
    load_session [mkHistEvent none [mkHistFRPart nm (JVal.arr vs)]]
      = .ok (if vs.isEmpty then []
             else [⟨.video_list, JVal.arr vs, JVal.str "assistant", JVal.int 0⟩]) ∧
    load_session [mkHistEvent none [mkHistFRPartNoVideos nm]] = .ok [] ∧
    load_session [mkHistEvent none [mkHistFRPartNoResp nm]] = .ok [] := by
  refine ⟨?_, rfl, rfl⟩
  cases vs with
  | nil => rfl
  | cons v vs => rfl

/-- C9: a frame with no `content`, a `content` with no `parts`, or an empty
`parts` list leaves the classifier state untouched — even with
`partial:false` no flush happens, because the flush check is nested inside
the truthy-parts branch; an open accumulation therefore survives such a
frame, as the three-frame stream shows. -/
theorem c9_empty_parts_ignored (st : SSEState) (b : Bool) :
    processFrame st (JVal.obj [("partial", JVal.bool b)]) = .ok st ∧
    processFrame st (JVal.obj [("content", JVal.obj []), ("partial", JVal.bool b)]) = .ok st ∧
    processFrame st (JVal.obj [("content", JVal.obj [("parts", JVal.arr [])]), ("partial", JVal.bool b)]) = .ok st ∧
    process_sse_events
        [dataOf (mkTextFrame "hi" true), dataOf (mkFrame [] false), dataOf (mkTextFrame "!" false)] false
      = ⟨[mkTextEvent "hi!"], false⟩ :=
  ⟨rfl, rfl, rfl, rfl⟩

/-- C10: every streamed event carries role `assistant` unconditionally,
while a historical message takes the event's `author` when present, and
when `author` is absent a `video_list` message defaults to `assistant` but
a `text` message defaults to `unknown`. -/
theorem c10_role_assignment (lines : List SSELine) (terr : Bool) (a : JVal) :
    (∀ ev ∈ (process_sse_events lines terr).events, ev.role = "assistant") ∧
    load_session [mkHistEvent none [mkHistFRPart "any_tool" (JVal.arr [JVal.str "v"])]]
      = .ok [⟨.video_list, JVal.arr [JVal.str "v"], JVal.str "assistant", JVal.int 0⟩] ∧
    load_session [mkHistEvent none [mkTextPart "hello"]]
      = .ok [⟨.text, JVal.str "hello", JVal.str "unknown", JVal.int 0⟩] ∧
    load_session [mkHistEvent (some a) [mkHistFRPart "any_tool" (JVal.arr [JVal.str "v"])]]
      = .ok [⟨.video_list, JVal.arr [JVal.str "v"], a, JVal.int 0⟩] ∧
    load_session [mkHistEvent (some a) [mkTextPart "hello"]]
      = .ok [⟨.text, JVal.str "hello", a, JVal.int 0⟩] := by
  refine ⟨?_, rfl, rfl, rfl, rfl⟩
  exact processLoop_role lines ⟨[], none⟩ terr (by intro ev hm; cases hm) (by intro ev he; cases he)

/-- C10 (witness): the Text event of a concrete one-frame stream carries
role `assistant`. -/
theorem c10_role_witness :
    (mkTextEvent "hi").role = "assistant" :=
  (c10_role_assignment [dataOf (mkTextFrame "hi" false)] false JVal.null).1 (mkTextEvent "hi")
    (by rw [show (process_sse_events [dataOf (mkTextFrame "hi" false)] false).events
          = [mkTextEvent "hi"] from rfl]
        exact List.mem_singleton.mpr rfl)

end YtAgent
